import Mathlib

/-!
Shallow embedding of `pkg/dropdown` (file `part_000`) of the qgo repository:
the interactive `Select` and `MultiSelect` terminal dropdowns.

The cursor is modelled as `Int` (Go `int`); Go's `%` on `int` is the
truncated-division remainder, `Int.tmod`.  Out-of-range list accesses, which
Go would panic on, are modelled with `List.getD` / `List.set`; the range
invariant proved below shows they never arise from a reachable state.
A Go `(α, error)` pair is `GoResult α`: `err msg` stands for the zero value
of `α` together with a non-nil error carrying message `msg` — the package
has no dedicated error types, only `fmt.Errorf` messages.
-/

namespace dropdown

/-- Model of the Go struct `Option`: `value` is returned to the caller,
`label` is display-only. -/
structure Option where
  value : String
  label : String
deriving Repr, DecidableEq

/-- Default `Option`, standing for the value a Go out-of-range access can
never produce (the range invariant rules it out). -/
def defaultOption : Option := ⟨"", ""⟩

/-- Key codes of the keyboard library that the two `switch key` statements
inspect; every other key code takes the `switch`'s implicit default and is
collapsed into `other`. -/
inductive Key where
  | arrowUp
  | arrowDown
  | enter
  | esc
  | space
  | other
deriving Repr, DecidableEq

/-- One result of `keyboard.GetKey()`: a key event `(char, key)`, or a read
error with message `msg`. -/
inductive KeyInput where
  | key (ch : Char) (k : Key)
  | readErr (msg : String)
deriving Repr, DecidableEq

/-- Model of a Go `(α, error)` return: `ok v` is `(v, nil)`; `err msg` is the
zero value of `α` paired with an error whose message is `msg`. -/
inductive GoResult (α : Type) where
  | ok (v : α)
  | err (msg : String)
deriving Repr, DecidableEq

/-- Result of running the interactive loop on a finite input stream:
`done r` when the Go function returns `r`; `blocked` when the stream is
exhausted, i.e. the next `GetKey` would block forever. -/
inductive LoopRes (α : Type) where
  | blocked
  | done (r : GoResult α)
deriving Repr, DecidableEq

/-- The check `char == 'q' || char == 'Q'` run after each `switch`. -/
def isQuitChar (ch : Char) : Bool := ch = 'q' || ch = 'Q'

/-- Message of the error returned on Escape or a quit character, in both
`Select` and `MultiSelect`. -/
def cancelledMsg : String := "selection cancelled"

/-- Message of the error returned when the option list is empty. -/
def emptyMsg : String := "no options provided"

/-- Cursor update of `KeyArrowDown`: `(selectedIndex + 1) % len(options)`,
identical in `Select` and `MultiSelect`. -/
def cursorDown (options : List Option) (c : Int) : Int :=
  Int.tmod (c + 1) (options.length : Int)

/-- Cursor update of `KeyArrowUp`:
`(selectedIndex - 1 + len(options)) % len(options)`, identical in `Select`
and `MultiSelect`. -/
def cursorUp (options : List Option) (c : Int) : Int :=
  Int.tmod (c - 1 + (options.length : Int)) (options.length : Int)

/-- Outcome of one iteration of the `Select` loop body after the key press:
the function returns `r`, or the loop continues with a new cursor. -/
inductive SelStep where
  | cont (c : Int)
  | done (r : GoResult String)
deriving Repr, DecidableEq

/-- Key-event dispatch of one `Select` loop iteration: the `switch key`
cases followed by the quit-character check, which runs whenever the switch
did not return (in particular after an arrow moved the cursor). -/
def selectStep (options : List Option) (c : Int) (ch : Char) (k : Key) : SelStep :=
  match k with
  | .arrowUp =>
      if isQuitChar ch then .done (.err cancelledMsg) else .cont (cursorUp options c)
  | .arrowDown =>
      if isQuitChar ch then .done (.err cancelledMsg) else .cont (cursorDown options c)
  | .enter => .done (.ok (options.getD c.toNat defaultOption).value)
  | .esc => .done (.err cancelledMsg)
  | .space =>
      if isQuitChar ch then .done (.err cancelledMsg) else .cont c
  | .other =>
      if isQuitChar ch then .done (.err cancelledMsg) else .cont c

/-- The `for` loop of `Select`, run on a finite list of `GetKey` results.
A read error is returned unchanged as the function's error. -/
def selectLoop (options : List Option) (c : Int) : List KeyInput → LoopRes String
  | [] => .blocked
  | .readErr msg :: _ => .done (.err msg)
  | .key ch k :: rest =>
    match selectStep options c ch k with
    | .done r => .done r
    | .cont c' => selectLoop options c' rest

/-- Cursor state of `Select` after consuming a list of inputs: `cont c'`
while the loop is still live, `done r` once some input made it return. -/
def runSelect (options : List Option) (c : Int) : List KeyInput → SelStep
  | [] => .cont c
  | .readErr msg :: _ => .done (.err msg)
  | .key ch k :: rest =>
    match selectStep options c ch k with
    | .done r => .done r
    | .cont c' => runSelect options c' rest

/-- The Enter case of `MultiSelect`: collect `options[i].Value` for every
index `i` with `selected[i]` true, scanning `selected` left to right; `i` is
the running index of the Go `range` loop. -/
def collectSelected (options : List Option) : List Bool → Nat → List String
  | [], _ => []
  | b :: rest, i =>
    if b then (options.getD i defaultOption).value :: collectSelected options rest (i + 1)
    else collectSelected options rest (i + 1)

/-- Outcome of one iteration of the `MultiSelect` loop body after the key
press: the function returns `r`, or the loop continues with a new cursor and
selection list. -/
inductive MulStep where
  | cont (c : Int) (sel : List Bool)
  | done (r : GoResult (List String))
deriving Repr, DecidableEq

/-- Key-event dispatch of one `MultiSelect` loop iteration: the `switch key`
cases (arrows, Enter, Escape, Space toggling `selected[selectedIndex]`)
followed by the quit-character check, which runs whenever the switch did not
return. -/
def multiSelectStep (options : List Option) (c : Int) (sel : List Bool)
    (ch : Char) (k : Key) : MulStep :=
  match k with
  | .arrowUp =>
      if isQuitChar ch then .done (.err cancelledMsg) else .cont (cursorUp options c) sel
  | .arrowDown =>
      if isQuitChar ch then .done (.err cancelledMsg) else .cont (cursorDown options c) sel
  | .enter => .done (.ok (collectSelected options sel 0))
  | .esc => .done (.err cancelledMsg)
  | .space =>
      let sel' := sel.set c.toNat (!(sel.getD c.toNat false))
      if isQuitChar ch then .done (.err cancelledMsg) else .cont c sel'
  | .other =>
      if isQuitChar ch then .done (.err cancelledMsg) else .cont c sel

/-- The `for` loop of `MultiSelect`, run on a finite list of `GetKey`
results. -/
def multiSelectLoop (options : List Option) (c : Int) (sel : List Bool) :
    List KeyInput → LoopRes (List String)
  | [] => .blocked
  | .readErr msg :: _ => .done (.err msg)
  | .key ch k :: rest =>
    match multiSelectStep options c sel ch k with
    | .done r => .done r
    | .cont c' sel' => multiSelectLoop options c' sel' rest

/-- State of `MultiSelect` after consuming a list of inputs: `cont c' sel'`
while the loop is still live, `done r` once some input made it return. -/
def runMulti (options : List Option) (c : Int) (sel : List Bool) :
    List KeyInput → MulStep
  | [] => .cont c sel
  | .readErr msg :: _ => .done (.err msg)
  | .key ch k :: rest =>
    match multiSelectStep options c sel ch k with
    | .done r => .done r
    | .cont c' sel' => runMulti options c' sel' rest

/-- ANSI clear-screen sequence printed at the top of every frame. -/
def clearScreen : String := "\x1b[2J"

/-- ANSI cursor-home sequence printed after the clear. -/
def cursorHome : String := "\x1b[H"

/-- Row marker of the `Select` renderer: `"> "` on the active row, `"  "`
elsewhere (the Go loop index `i` is compared with the `int` cursor). -/
def selectRowMark (c : Int) (i : Nat) : String :=
  if (i : Int) = c then "> " else "  "

/-- Lines printed by one `Select` frame: clear and home sequences, the
prompt, a blank line, then one `prefix + label` line per option. -/
def selectFrame (prompt : String) (options : List Option) (c : Int) : List String :=
  clearScreen :: cursorHome :: prompt :: "" ::
    options.enum.map (fun p => selectRowMark c p.1 ++ p.2.label)

/-- Model of Go `strings.ToUpper` on the ASCII marker strings used here:
uppercase every character. -/
def toUpperStr (s : String) : String := ⟨s.data.map Char.toUpper⟩

/-- Row marker of the `MultiSelect` renderer: `"[ ]"` or `"[x]"` by
membership in `selected`, passed through `strings.ToUpper` on the active
row. -/
def multiRowMark (sel : List Bool) (c : Int) (i : Nat) : String :=
  let m := if sel.getD i false then "[x]" else "[ ]"
  if (i : Int) = c then toUpperStr m else m

/-- Help line printed by every `MultiSelect` frame. -/
def multiHelp : String :=
  "\nUse arrow keys to navigate, space to select/deselect, enter to confirm, q to quit"

/-- Lines printed by one `MultiSelect` frame: clear and home sequences, the
prompt, the help line, a blank line, then one `prefix + \" \" + label` line
per option. -/
def multiFrame (prompt : String) (options : List Option) (sel : List Bool)
    (c : Int) : List String :=
  clearScreen :: cursorHome :: prompt :: multiHelp :: "" ::
    options.enum.map (fun p => multiRowMark sel c p.1 ++ " " ++ p.2.label)

/-- Observable side effects of one invocation, in order: raw-mode acquire
(`keyboard.Open`), raw-mode release (`keyboard.Close`), one full-frame
redraw, one completed key read. -/
inductive Effect where
  | openRaw
  | closeRaw
  | render (lines : List String)
  | readKey
deriving Repr, DecidableEq

/-- The `Select` loop together with its effect trace: each iteration redraws
the frame, then reads one key.  The deferred `Close` is appended by the
wrapper `Select`, not here. -/
def selectLoopTr (prompt : String) (options : List Option) (c : Int) :
    List KeyInput → LoopRes String × List Effect
  | [] => (.blocked, [.render (selectFrame prompt options c)])
  | .readErr msg :: _ =>
      (.done (.err msg), [.render (selectFrame prompt options c), .readKey])
  | .key ch k :: rest =>
    match selectStep options c ch k with
    | .done r => (.done r, [.render (selectFrame prompt options c), .readKey])
    | .cont c' =>
        let p := selectLoopTr prompt options c' rest
        (p.1, .render (selectFrame prompt options c) :: .readKey :: p.2)

/-- Model of the Go function `Select`: the empty-list guard, then
`keyboard.Open()` — whose success and error message are parameters — then
the loop from cursor `0`, with `defer keyboard.Close()` firing on every
return path after a successful open. -/
def Select (prompt : String) (options : List Option) (openOk : Bool)
    (openMsg : String) (inputs : List KeyInput) : LoopRes String × List Effect :=
  if options.length = 0 then (.done (.err emptyMsg), [])
  else if openOk = false then (.done (.err openMsg), [.openRaw])
  else
    match selectLoopTr prompt options 0 inputs with
    | (.done r, tr) => (.done r, .openRaw :: (tr ++ [.closeRaw]))
    | (.blocked, tr) => (.blocked, .openRaw :: tr)

/-- The `MultiSelect` loop together with its effect trace: each iteration
redraws the frame, then reads one key. -/
def multiSelectLoopTr (prompt : String) (options : List Option) (c : Int)
    (sel : List Bool) : List KeyInput → LoopRes (List String) × List Effect
  | [] => (.blocked, [.render (multiFrame prompt options sel c)])
  | .readErr msg :: _ =>
      (.done (.err msg), [.render (multiFrame prompt options sel c), .readKey])
  | .key ch k :: rest =>
    match multiSelectStep options c sel ch k with
    | .done r => (.done r, [.render (multiFrame prompt options sel c), .readKey])
    | .cont c' sel' =>
        let p := multiSelectLoopTr prompt options c' sel' rest
        (p.1, .render (multiFrame prompt options sel c) :: .readKey :: p.2)

/-- Model of the Go function `MultiSelect`: the empty-list guard, then
`keyboard.Open()`, then the loop from cursor `0` with `selected` initialised
to `make([]bool, len(options))` (all false), with `defer keyboard.Close()`
firing on every return path after a successful open. -/
def MultiSelect (prompt : String) (options : List Option) (openOk : Bool)
    (openMsg : String) (inputs : List KeyInput) :
    LoopRes (List String) × List Effect :=
  if options.length = 0 then (.done (.err emptyMsg), [])
  else if openOk = false then (.done (.err openMsg), [.openRaw])
  else
    match multiSelectLoopTr prompt options 0 (List.replicate options.length false) inputs with
    | (.done r, tr) => (.done r, .openRaw :: (tr ++ [.closeRaw]))
    | (.blocked, tr) => (.blocked, .openRaw :: tr)

/-- Options of the specification's worked scenario:
`[{"1","One"},{"2","Two"},{"3","Three"}]`. -/
def demoOptions : List Option := [⟨"1", "One"⟩, ⟨"2", "Two"⟩, ⟨"3", "Three"⟩]

/-- Arrow-down key event as the keyboard library delivers it (char 0). -/
def demoDown : KeyInput := .key (Char.ofNat 0) .arrowDown

/-- Arrow-up key event as the keyboard library delivers it (char 0). -/
def demoUp : KeyInput := .key (Char.ofNat 0) .arrowUp

/-- Enter key event as the keyboard library delivers it (char 0). -/
def demoEnter : KeyInput := .key (Char.ofNat 0) .enter

/-- Space key event as the keyboard library delivers it (char 0). -/
def demoSpace : KeyInput := .key (Char.ofNat 0) .space

/-! Helper lemmas shared by the claim theorems. -/

lemma length_int_pos {options : List Option} (h : options ≠ []) :
    0 < (options.length : Int) := by
  exact_mod_cast List.length_pos.mpr h

lemma cursorDown_emod (options : List Option) {c : Int} (hc : 0 ≤ c) :
    cursorDown options c = (c + 1) % (options.length : Int) := by
  unfold cursorDown
  exact Int.tmod_eq_emod (by omega) (Int.natCast_nonneg _)

lemma cursorUp_emod (options : List Option) {c : Int} (hc : 0 ≤ c) (h : options ≠ []) :
    cursorUp options c = (c - 1 + (options.length : Int)) % (options.length : Int) := by
  have hn := length_int_pos h
  unfold cursorUp
  exact Int.tmod_eq_emod (by omega) (by omega)

lemma cursorDown_range (options : List Option) {c : Int} (h : options ≠ []) (hc : 0 ≤ c) :
    0 ≤ cursorDown options c ∧ cursorDown options c < (options.length : Int) := by
  have hn := length_int_pos h
  rw [cursorDown_emod options hc]
  exact ⟨Int.emod_nonneg _ (by omega), Int.emod_lt_of_pos _ hn⟩

lemma cursorUp_range (options : List Option) {c : Int} (h : options ≠ []) (hc : 0 ≤ c) :
    0 ≤ cursorUp options c ∧ cursorUp options c < (options.length : Int) := by
  have hn := length_int_pos h
  rw [cursorUp_emod options hc h]
  exact ⟨Int.emod_nonneg _ (by omega), Int.emod_lt_of_pos _ hn⟩

lemma cursorDown_iterate (options : List Option) (h : options ≠ []) {c : Int}
    (hc : 0 ≤ c) (hlt : c < (options.length : Int)) (k : Nat) :
    (cursorDown options)^[k] c = (c + k) % (options.length : Int) := by
  have hn := length_int_pos h
  induction k with
  | zero => simpa using (Int.emod_eq_of_lt hc hlt).symm
  | succ k ih =>
    rw [Function.iterate_succ_apply', ih,
      cursorDown_emod options (Int.emod_nonneg _ (by omega)), Int.emod_add_emod]
    congr 1
    push_cast
    ring

lemma cursorUp_iterate (options : List Option) (h : options ≠ []) {c : Int}
    (hc : 0 ≤ c) (hlt : c < (options.length : Int)) (k : Nat) :
    (cursorUp options)^[k] c = (c - k) % (options.length : Int) := by
  have hn := length_int_pos h
  induction k with
  | zero => simpa using (Int.emod_eq_of_lt hc hlt).symm
  | succ k ih =>
    rw [Function.iterate_succ_apply', ih,
      cursorUp_emod options (Int.emod_nonneg _ (by omega)) h]
    have h1 : (c - (k : Int)) % (options.length : Int) - 1 + (options.length : Int)
        = (c - (k : Int)) % (options.length : Int) + ((options.length : Int) - 1) := by
      ring
    rw [h1, Int.emod_add_emod]
    have h2 : c - (k : Int) + ((options.length : Int) - 1)
        = c - ((k : Int) + 1) + (options.length : Int) * 1 := by ring
    rw [h2, Int.add_mul_emod_self_left]
    congr 1
    try push_cast
    try ring

lemma selectStep_cont_range {options : List Option} (h : options ≠ []) {c c' : Int}
    (hc : 0 ≤ c) (hlt : c < (options.length : Int)) {ch : Char} {k : Key}
    (hstep : selectStep options c ch k = .cont c') :
    0 ≤ c' ∧ c' < (options.length : Int) := by
  cases k with
  | arrowUp =>
    by_cases hq : isQuitChar ch = true <;> simp [selectStep, hq] at hstep
    exact hstep ▸ cursorUp_range options h hc
  | arrowDown =>
    by_cases hq : isQuitChar ch = true <;> simp [selectStep, hq] at hstep
    exact hstep ▸ cursorDown_range options h hc
  | enter => simp [selectStep] at hstep
  | esc => simp [selectStep] at hstep
  | space =>
    by_cases hq : isQuitChar ch = true <;> simp [selectStep, hq] at hstep
    exact hstep ▸ ⟨hc, hlt⟩
  | other =>
    by_cases hq : isQuitChar ch = true <;> simp [selectStep, hq] at hstep
    exact hstep ▸ ⟨hc, hlt⟩

lemma multiSelectStep_cont_range {options : List Option} (h : options ≠ [])
    {c c' : Int} {sel sel' : List Bool}
    (hc : 0 ≤ c) (hlt : c < (options.length : Int)) (hsel : sel.length = options.length)
    {ch : Char} {k : Key}
    (hstep : multiSelectStep options c sel ch k = .cont c' sel') :
    (0 ≤ c' ∧ c' < (options.length : Int)) ∧ sel'.length = options.length := by
  cases k with
  | arrowUp =>
    by_cases hq : isQuitChar ch = true <;> simp [multiSelectStep, hq] at hstep
    obtain ⟨h1, h2⟩ := hstep
    subst h1
    subst h2
    exact ⟨cursorUp_range options h hc, hsel⟩
  | arrowDown =>
    by_cases hq : isQuitChar ch = true <;> simp [multiSelectStep, hq] at hstep
    obtain ⟨h1, h2⟩ := hstep
    subst h1
    subst h2
    exact ⟨cursorDown_range options h hc, hsel⟩
  | enter => simp [multiSelectStep] at hstep
  | esc => simp [multiSelectStep] at hstep
  | space =>
    by_cases hq : isQuitChar ch = true <;> simp [multiSelectStep, hq] at hstep
    obtain ⟨h1, h2⟩ := hstep
    subst h1
    subst h2
    exact ⟨⟨hc, hlt⟩, by simpa using hsel⟩
  | other =>
    by_cases hq : isQuitChar ch = true <;> simp [multiSelectStep, hq] at hstep
    obtain ⟨h1, h2⟩ := hstep
    subst h1
    subst h2
    exact ⟨⟨hc, hlt⟩, hsel⟩

lemma runSelect_cont_range {options : List Option} (h : options ≠ []) :
    ∀ (inputs : List KeyInput) (c : Int), 0 ≤ c → c < (options.length : Int) →
      ∀ c', runSelect options c inputs = .cont c' →
        0 ≤ c' ∧ c' < (options.length : Int) := by
  intro inputs
  induction inputs with
  | nil =>
    intro c hc hlt c' hrun
    simp only [runSelect, SelStep.cont.injEq] at hrun
    exact hrun ▸ ⟨hc, hlt⟩
  | cons e rest ih =>
    intro c hc hlt c' hrun
    cases e with
    | readErr msg => simp [runSelect] at hrun
    | key ch k =>
      cases hstep : selectStep options c ch k with
      | done r =>
        simp only [runSelect, hstep] at hrun
        exact SelStep.noConfusion hrun
      | cont c'' =>
        simp only [runSelect, hstep] at hrun
        have hr := selectStep_cont_range h hc hlt hstep
        exact ih c'' hr.1 hr.2 c' hrun

lemma runMulti_cont_range {options : List Option} (h : options ≠ []) :
    ∀ (inputs : List KeyInput) (c : Int) (sel : List Bool),
      0 ≤ c → c < (options.length : Int) → sel.length = options.length →
      ∀ c' sel', runMulti options c sel inputs = .cont c' sel' →
        (0 ≤ c' ∧ c' < (options.length : Int)) ∧ sel'.length = options.length := by
  intro inputs
  induction inputs with
  | nil =>
    intro c sel hc hlt hsel c' sel' hrun
    simp only [runMulti, MulStep.cont.injEq] at hrun
    exact hrun.1 ▸ hrun.2 ▸ ⟨⟨hc, hlt⟩, hsel⟩
  | cons e rest ih =>
    intro c sel hc hlt hsel c' sel' hrun
    cases e with
    | readErr msg => simp [runMulti] at hrun
    | key ch k =>
      cases hstep : multiSelectStep options c sel ch k with
      | done r =>
        simp only [runMulti, hstep] at hrun
        exact MulStep.noConfusion hrun
      | cont c'' sel'' =>
        simp only [runMulti, hstep] at hrun
        have hr := multiSelectStep_cont_range h hc hlt hsel hstep
        exact ih c'' sel'' hr.1.1 hr.1.2 hr.2 c' sel' hrun

lemma selectStep_done_ok {options : List Option} {c : Int} {ch : Char} {k : Key}
    {v : String} (hstep : selectStep options c ch k = .done (.ok v)) :
    k = .enter ∧ v = (options.getD c.toNat defaultOption).value := by
  cases k with
  | enter =>
    simp only [selectStep, SelStep.done.injEq, GoResult.ok.injEq] at hstep
    exact ⟨rfl, hstep.symm⟩
  | arrowUp => by_cases hq : isQuitChar ch = true <;> simp [selectStep, hq] at hstep
  | arrowDown => by_cases hq : isQuitChar ch = true <;> simp [selectStep, hq] at hstep
  | esc => simp [selectStep] at hstep
  | space => by_cases hq : isQuitChar ch = true <;> simp [selectStep, hq] at hstep
  | other => by_cases hq : isQuitChar ch = true <;> simp [selectStep, hq] at hstep

lemma selectLoop_ok_split {options : List Option} :
    ∀ (inputs : List KeyInput) (c : Int) (v : String),
      selectLoop options c inputs = .done (.ok v) →
      ∃ pre ch post c', inputs = pre ++ KeyInput.key ch Key.enter :: post
        ∧ runSelect options c pre = .cont c'
        ∧ v = (options.getD c'.toNat defaultOption).value := by
  intro inputs
  induction inputs with
  | nil => intro c v hloop; simp [selectLoop] at hloop
  | cons e rest ih =>
    intro c v hloop
    cases e with
    | readErr msg => simp [selectLoop] at hloop
    | key ch k =>
      cases hstep : selectStep options c ch k with
      | done r =>
        simp only [selectLoop, hstep] at hloop
        have hr : r = .ok v := by simpa using hloop
        rw [hr] at hstep
        obtain ⟨hk, hv⟩ := selectStep_done_ok hstep
        subst hk
        exact ⟨[], ch, rest, c, rfl, rfl, hv⟩
      | cont c' =>
        simp only [selectLoop, hstep] at hloop
        obtain ⟨pre, ch', post, c'', heq, hrun, hv⟩ := ih c' v hloop
        refine ⟨KeyInput.key ch k :: pre, ch', post, c'', by simp [heq], ?_, hv⟩
        simp only [runSelect, hstep]
        exact hrun

lemma getD_false_of_le : ∀ (l : List Bool) (i : Nat), l.length ≤ i → l.getD i false = false
  | [], _, _ => rfl
  | _ :: _, 0, h => absurd h (by simp)
  | _ :: l, i + 1, h => getD_false_of_le l i (by simpa using h)

lemma getD_set_self : ∀ (l : List Bool) (i : Nat) (b : Bool),
    i < l.length → (l.set i b).getD i false = b
  | _ :: _, 0, _, _ => rfl
  | _ :: l, i + 1, b, h => getD_set_self l i b (by simpa using h)

lemma set_getD_self : ∀ (l : List Bool) (i : Nat), l.set i (l.getD i false) = l
  | [], _ => rfl
  | _ :: _, 0 => rfl
  | a :: l, i + 1 => congrArg (List.cons a) (set_getD_self l i)

lemma collectSelected_eq (options : List Option) :
    ∀ (sel : List Bool) (j : Nat),
      collectSelected options sel j
        = ((List.range sel.length).filter (fun i => sel.getD i false)).map
            (fun i => (options.getD (j + i) defaultOption).value) := by
  intro sel
  induction sel with
  | nil => intro j; simp [collectSelected]
  | cons b rest ih =>
    intro j
    have hcomp : (fun i => (b :: rest).getD i false) ∘ Nat.succ
        = fun i => rest.getD i false := by
      funext i
      simp
    have harg : ((fun i => (options.getD (j + i) defaultOption).value) ∘ Nat.succ)
        = fun i => (options.getD (j + 1 + i) defaultOption).value := by
      funext i
      simp only [Function.comp]
      have : j + Nat.succ i = j + 1 + i := by omega
      rw [this]
    cases b with
    | false =>
      have hstep : collectSelected options (false :: rest) j
          = collectSelected options rest (j + 1) := by simp [collectSelected]
      rw [hstep, ih, List.length_cons, List.range_succ_eq_map,
        List.filter_cons_of_neg (by simp), List.filter_map, hcomp, List.map_map, harg]
    | true =>
      have hstep : collectSelected options (true :: rest) j
          = (options.getD j defaultOption).value :: collectSelected options rest (j + 1) := by
        simp [collectSelected]
      rw [hstep, ih, List.length_cons, List.range_succ_eq_map,
        List.filter_cons_of_pos (by simp), List.map_cons, List.filter_map, hcomp,
        List.map_map, harg]
      simp

lemma replicate_getD_false : ∀ (n i : Nat), (List.replicate n false).getD i false = false
  | 0, _ => rfl
  | _ + 1, 0 => rfl
  | n + 1, i + 1 => replicate_getD_false n i

lemma multiSelectLoop_cons_cont {options : List Option} {c : Int} {sel : List Bool}
    {ch : Char} {k : Key} {c' : Int} {sel' : List Bool} (rest : List KeyInput)
    (hstep : multiSelectStep options c sel ch k = .cont c' sel') :
    multiSelectLoop options c sel (.key ch k :: rest)
      = multiSelectLoop options c' sel' rest := by
  simp only [multiSelectLoop, hstep]

/-! The claim theorems. -/

/-- C1: in single-select, pressing Enter at any reachable (in-range) cursor
makes the loop return exactly `options[cursor].value`; conversely, any run
that returns a value decomposes as a non-returning prefix followed by an
Enter key at the cursor then current, so Enter is the only exit path that
produces a value; and the spec scenario Down, Down, Enter over options
1/2/3 returns "3". -/
theorem select_enter_confirms :
    (∀ (options : List Option) (c : Int), options ≠ [] → 0 ≤ c →
      c < (options.length : Int) →
      (∀ (ch : Char) (rest : List KeyInput),
          selectLoop options c (KeyInput.key ch Key.enter :: rest)
            = .done (.ok (options.getD c.toNat defaultOption).value))
      ∧ (∀ (inputs : List KeyInput) (v : String),
          selectLoop options c inputs = .done (.ok v) →
          ∃ pre ch post c', inputs = pre ++ KeyInput.key ch Key.enter :: post
            ∧ runSelect options c pre = .cont c'
            ∧ v = (options.getD c'.toNat defaultOption).value))
    ∧ selectLoop demoOptions 0 [demoDown, demoDown, demoEnter] = .done (.ok "3") := by
  constructor
  · intro options c h hc hlt
    constructor
    · intro ch rest
      simp [selectLoop, selectStep]
    · intro inputs v hloop
      exact selectLoop_ok_split inputs c v hloop
  · decide

/-- Witness for C1 at a concrete state: Enter at cursor 2 over the demo
options returns "3". -/
theorem select_enter_confirms_witness :
    selectLoop demoOptions 2 [KeyInput.key 'x' Key.enter] = .done (.ok "3") := by
  have h := (select_enter_confirms.1 demoOptions 2 (by decide) (by decide)
    (by decide)).1 'x' []
  exact h

/-- C2: in multi-select, pressing Enter returns exactly the values of the
selected indices in original list order (a function of the selected set
only, hence independent of toggle order); the all-false selection returns
the empty list, not an error; and the scenario that toggles option 3 first
and option 1 second still returns ["1", "3"]. -/
theorem multiselect_enter_result :
    (∀ (options : List Option) (c : Int) (sel : List Bool), options ≠ [] →
      0 ≤ c → c < (options.length : Int) → sel.length = options.length →
      ∀ (ch : Char) (rest : List KeyInput),
        multiSelectLoop options c sel (KeyInput.key ch Key.enter :: rest)
          = .done (.ok (((List.range options.length).filter
              (fun i => sel.getD i false)).map
              (fun i => (options.getD i defaultOption).value)))
        ∧ (sel = List.replicate options.length false →
            multiSelectLoop options c sel (KeyInput.key ch Key.enter :: rest)
              = .done (.ok [])))
    ∧ multiSelectLoop demoOptions 0 [false, false, false]
        [demoDown, demoDown, demoSpace, demoUp, demoUp, demoSpace, demoEnter]
        = .done (.ok ["1", "3"]) := by
  constructor
  · intro options c sel h hc hlt hsel ch rest
    have henter : multiSelectLoop options c sel (KeyInput.key ch Key.enter :: rest)
        = .done (.ok (collectSelected options sel 0)) := by
      simp [multiSelectLoop, multiSelectStep]
    constructor
    · rw [henter, collectSelected_eq, hsel]
      simp
    · intro hrep
      subst hrep
      rw [henter, collectSelected_eq]
      simp [replicate_getD_false]
  · decide

/-- Witness for C2 at a concrete state: Enter with only index 1 selected
returns ["2"]. -/
theorem multiselect_enter_result_witness :
    multiSelectLoop demoOptions 0 [false, true, false] [demoEnter]
      = .done (.ok ["2"]) := by
  have h := ((multiselect_enter_result.1 demoOptions 0 [false, true, false]
    (by decide) (by decide) (by decide) (by decide)) (Char.ofNat 0) []).1
  simpa using h

/-- C3: the arrow transitions of both machines are the shared wraparound
maps; pressing Down (or Up) exactly n times from any in-range cursor
returns to it; Up at 0 gives n-1, Down at n-1 gives 0; and for n = 1 both
movement maps fix the cursor. -/
theorem wraparound_closure :
    ∀ (options : List Option) (c : Int), options ≠ [] → 0 ≤ c →
      c < (options.length : Int) →
      (∀ (ch : Char) (sel : List Bool), isQuitChar ch = false →
          selectStep options c ch Key.arrowDown = .cont (cursorDown options c)
        ∧ selectStep options c ch Key.arrowUp = .cont (cursorUp options c)
        ∧ multiSelectStep options c sel ch Key.arrowDown
            = .cont (cursorDown options c) sel
        ∧ multiSelectStep options c sel ch Key.arrowUp
            = .cont (cursorUp options c) sel)
      ∧ (cursorDown options)^[options.length] c = c
      ∧ (cursorUp options)^[options.length] c = c
      ∧ cursorUp options 0 = (options.length : Int) - 1
      ∧ cursorDown options ((options.length : Int) - 1) = 0
      ∧ (options.length = 1 → cursorDown options c = c ∧ cursorUp options c = c) := by
  intro options c h hc hlt
  have hn := length_int_pos h
  refine ⟨?_, ?_, ?_, ?_, ?_, ?_⟩
  · intro ch sel hq
    simp [selectStep, multiSelectStep, hq]
  · rw [cursorDown_iterate options h hc hlt]
    have hx : c + (options.length : Int) = c + (options.length : Int) * 1 := by ring
    rw [hx, Int.add_mul_emod_self_left, Int.emod_eq_of_lt hc hlt]
  · rw [cursorUp_iterate options h hc hlt]
    have hx : c - (options.length : Int) = c + (options.length : Int) * (-1) := by ring
    rw [hx, Int.add_mul_emod_self_left, Int.emod_eq_of_lt hc hlt]
  · rw [cursorUp_emod options le_rfl h]
    have hx : (0 : Int) - 1 + (options.length : Int) = (options.length : Int) - 1 := by
      ring
    rw [hx, Int.emod_eq_of_lt (by omega) (by omega)]
  · rw [cursorDown_emod options (by omega)]
    have hx : (options.length : Int) - 1 + 1 = (options.length : Int) := by ring
    rw [hx, Int.emod_self]
  · intro h1
    have hc0 : c = 0 := by
      rw [h1] at hlt
      omega
    subst hc0
    constructor
    · rw [cursorDown_emod options le_rfl]
      simp [h1]
    · rw [cursorUp_emod options le_rfl h]
      simp [h1]

/-- Witness for C3 at a concrete state: three Downs from cursor 1 over the
three demo options come back to 1. -/
theorem wraparound_closure_witness :
    (cursorDown demoOptions)^[3] 1 = 1 := by
  have h := (wraparound_closure demoOptions 1 (by decide) (by decide)
    (by decide)).2.1
  exact h

/-- C4 (counterexample): the claim that the active row's rendered indicator
always differs from every non-active row of equal selection status is false:
`strings.ToUpper "[ ]"` is `"[ ]"`, so with nothing selected the active row 0
renders exactly like the non-active row 1. -/
theorem multi_mark_claim_false :
    ¬ (∀ (sel : List Bool) (c i : Nat), i ≠ c →
        sel.getD i false = sel.getD c false →
        multiRowMark sel (c : Int) i ≠ multiRowMark sel (c : Int) c) := by
  intro hclaim
  exact hclaim [false, false] 0 1 (by decide) (by decide) (by decide)

/-- C4 (amended): every row's indicator reflects that index's membership in
`selected` (`"[x]"` vs `"[ ]"` off-cursor, `"[X]"` vs `"[ ]"` at the cursor),
and the active row's indicator differs from every non-active row's exactly
when the active row is selected; an unselected active row is rendered
identically to the unselected non-active rows. -/
theorem multi_mark_amended :
    ∀ (sel : List Bool) (c i : Nat), i ≠ c →
      (multiRowMark sel (c : Int) i = if sel.getD i false then "[x]" else "[ ]")
      ∧ (multiRowMark sel (c : Int) c = if sel.getD c false then "[X]" else "[ ]")
      ∧ (sel.getD c false = true →
          multiRowMark sel (c : Int) c ≠ multiRowMark sel (c : Int) i)
      ∧ (sel.getD c false = false →
          (multiRowMark sel (c : Int) c = multiRowMark sel (c : Int) i
            ↔ sel.getD i false = false)) := by
  intro sel c i hne
  have hic : (i : Int) ≠ (c : Int) := by exact_mod_cast hne
  have hmark_i : multiRowMark sel (c : Int) i
      = (if sel.getD i false then "[x]" else "[ ]") := by
    simp only [multiRowMark]
    rw [if_neg hic]
  have hmark_c : multiRowMark sel (c : Int) c
      = toUpperStr (if sel.getD c false then "[x]" else "[ ]") := by
    simp only [multiRowMark]
    rw [if_pos trivial]
  cases hcc : sel.getD c false <;> cases hii : sel.getD i false <;>
    rw [hmark_i, hmark_c, hcc, hii] <;> decide

/-- Witness for C4 (amended) at a concrete state: with index 0 selected and
active, row 0 renders "[X]" and row 1 renders "[ ]". -/
theorem multi_mark_amended_witness :
    multiRowMark [true, false] 0 1 = "[ ]" ∧ multiRowMark [true, false] 0 0 = "[X]" := by
  have h := multi_mark_amended [true, false] 0 1 (by decide)
  exact ⟨by simpa using h.1, by simpa using h.2.1⟩

/-- C5: from any reachable state of either machine, Escape, or a quit
character 'q'/'Q' on any key event that is not Enter, makes the loop return
immediately with the cancellation error, producing no value. -/
theorem cancel_no_value :
    ∀ (options : List Option) (c : Int) (sel : List Bool), options ≠ [] →
      0 ≤ c → c < (options.length : Int) → sel.length = options.length →
      ∀ (ch : Char) (k : Key),
        (k = Key.esc ∨ (k ≠ Key.enter ∧ isQuitChar ch = true)) →
        ∀ rest : List KeyInput,
          selectLoop options c (KeyInput.key ch k :: rest)
            = .done (.err cancelledMsg)
          ∧ multiSelectLoop options c sel (KeyInput.key ch k :: rest)
            = .done (.err cancelledMsg) := by
  intro options c sel h hc hlt hsel ch k hk rest
  rcases hk with hk | ⟨hne, hq⟩
  · subst hk
    constructor <;>
      simp [selectLoop, multiSelectLoop, selectStep, multiSelectStep]
  · cases k
    case enter => exact absurd rfl hne
    all_goals constructor <;>
      simp [selectLoop, multiSelectLoop, selectStep, multiSelectStep, hq]

/-- Witness for C5 at a concrete state: the character 'q' on an otherwise
unclassified key cancels single-select. -/
theorem cancel_no_value_witness :
    selectLoop demoOptions 0 [KeyInput.key 'q' Key.other]
      = .done (.err cancelledMsg) := by
  have h := cancel_no_value demoOptions 0 [false, false, false] (by decide)
    (by decide) (by decide) (by decide) 'q' Key.other
    (Or.inr ⟨by decide, by decide⟩) []
  exact h.1

/-- C6: with an empty option list both functions return the empty-options
error with an empty effect trace — no raw-mode acquisition is attempted, and
nothing is rendered or read. -/
theorem empty_options_immediate :
    ∀ (prompt openMsg : String) (openOk : Bool) (inputs : List KeyInput),
      Select prompt [] openOk openMsg inputs = (.done (.err emptyMsg), [])
      ∧ MultiSelect prompt [] openOk openMsg inputs = (.done (.err emptyMsg), []) := by
  intro prompt openMsg openOk inputs
  exact ⟨rfl, rfl⟩

/-- C7: in multi-select, Space at the cursor flips exactly the cursor's
membership, and a second Space restores the original selection: the two-step
composite is the identity on `(cursor, selected)`, and the loop after two
Space presses behaves as the loop on the remaining inputs from the original
state. -/
theorem toggle_twice_identity :
    ∀ (options : List Option) (c : Int) (sel : List Bool), options ≠ [] →
      0 ≤ c → c < (options.length : Int) → sel.length = options.length →
      ∀ (ch ch' : Char), isQuitChar ch = false → isQuitChar ch' = false →
        multiSelectStep options c sel ch Key.space
          = .cont c (sel.set c.toNat (!(sel.getD c.toNat false)))
        ∧ multiSelectStep options c (sel.set c.toNat (!(sel.getD c.toNat false)))
            ch' Key.space = .cont c sel
        ∧ ∀ rest : List KeyInput,
            multiSelectLoop options c sel
              (KeyInput.key ch Key.space :: KeyInput.key ch' Key.space :: rest)
              = multiSelectLoop options c sel rest := by
  intro options c sel h hc hlt hsel ch ch' hq hq'
  have hcn : c.toNat < sel.length := by
    rw [hsel]
    omega
  have hback : (sel.set c.toNat (!(sel.getD c.toNat false))).set c.toNat
      (!((sel.set c.toNat (!(sel.getD c.toNat false))).getD c.toNat false)) = sel := by
    rw [getD_set_self sel c.toNat _ hcn, Bool.not_not, List.set_set, set_getD_self]
  have hstep1 : multiSelectStep options c sel ch Key.space
      = .cont c (sel.set c.toNat (!(sel.getD c.toNat false))) := by
    simp only [multiSelectStep]
    rw [hq]
    simp
  have hstep2 : multiSelectStep options c (sel.set c.toNat (!(sel.getD c.toNat false)))
      ch' Key.space = .cont c sel := by
    simp only [multiSelectStep]
    rw [hq']
    simpa using hback
  refine ⟨hstep1, hstep2, ?_⟩
  intro rest
  rw [multiSelectLoop_cons_cont _ hstep1, multiSelectLoop_cons_cont _ hstep2]

/-- Witness for C7 at a concrete state: two Spaces before Enter leave the
result as if only the remaining Enter were pressed. -/
theorem toggle_twice_identity_witness :
    multiSelectLoop demoOptions 0 [false, false, false]
      [KeyInput.key 'a' Key.space, KeyInput.key 'b' Key.space, demoEnter]
      = multiSelectLoop demoOptions 0 [false, false, false] [demoEnter] := by
  have h := toggle_twice_identity demoOptions 0 [false, false, false] (by decide)
    (by decide) (by decide) (by decide) 'a' 'b' (by decide) (by decide)
  exact h.2.2 [demoEnter]

/-- C8: from an in-range state, along any input sequence, the cursor of both
machines stays in `[0, n)` and the multi-select selection list keeps length
`n`; consequently every index selected in a reachable state is below `n`,
and the accesses `options[cursor]`, `selected[cursor]` are in bounds. -/
theorem state_invariant :
    ∀ (options : List Option), options ≠ [] →
    ∀ (inputs : List KeyInput) (c : Int) (sel : List Bool),
      0 ≤ c → c < (options.length : Int) → sel.length = options.length →
      (∀ c', runSelect options c inputs = .cont c' →
        0 ≤ c' ∧ c' < (options.length : Int))
      ∧ (∀ c' sel', runMulti options c sel inputs = .cont c' sel' →
          (0 ≤ c' ∧ c' < (options.length : Int)) ∧ sel'.length = options.length
          ∧ (∀ i : Nat, sel'.getD i false = true → i < options.length)) := by
  intro options h inputs c sel hc hlt hsel
  constructor
  · exact runSelect_cont_range h inputs c hc hlt
  · intro c' sel' hrun
    have hr := runMulti_cont_range h inputs c sel hc hlt hsel c' sel' hrun
    refine ⟨hr.1, hr.2, ?_⟩
    intro i hi
    by_contra hge
    have hle : sel'.length ≤ i := by
      rw [hr.2]
      omega
    rw [getD_false_of_le sel' i hle] at hi
    exact absurd hi (by simp)

/-- Witness for C8 at a concrete state: one Down from cursor 0 over the demo
options leaves the cursor at 1, inside `[0, 3)`. -/
theorem state_invariant_witness :
    (0 : Int) ≤ 1 ∧ (1 : Int) < (demoOptions.length : Int) := by
  have h := (state_invariant demoOptions (by decide) [demoDown] 0
    [false, false, false] (by decide) (by decide) (by decide)).1 1 (by decide)
  exact h

lemma wrap_trace_head_last (tr' : List Effect) :
    (Effect.openRaw :: (tr' ++ [Effect.closeRaw])).head? = some Effect.openRaw
    ∧ (Effect.openRaw :: (tr' ++ [Effect.closeRaw])).getLast? = some Effect.closeRaw := by
  constructor
  · rfl
  · rw [show Effect.openRaw :: (tr' ++ [Effect.closeRaw])
        = (Effect.openRaw :: tr') ++ [Effect.closeRaw] by simp,
      List.getLast?_concat]

/-- C9: after a successful raw-mode acquisition, whenever the invocation
returns — confirmation, cancellation, or read failure — its effect trace
begins with the acquisition and ends with the release: `Close` runs on every
exit path before the result reaches the caller. -/
theorem close_on_every_exit :
    ∀ (prompt openMsg : String) (options : List Option) (inputs : List KeyInput),
      options ≠ [] →
      (∀ r tr, Select prompt options true openMsg inputs = (.done r, tr) →
        tr.head? = some Effect.openRaw ∧ tr.getLast? = some Effect.closeRaw)
      ∧ (∀ r tr, MultiSelect prompt options true openMsg inputs = (.done r, tr) →
        tr.head? = some Effect.openRaw ∧ tr.getLast? = some Effect.closeRaw) := by
  intro prompt openMsg options inputs h
  have hlen : ¬ options.length = 0 := by simpa using h
  constructor
  · intro r tr heq
    rw [Select, if_neg hlen] at heq
    simp only [Bool.true_eq_false, if_false] at heq
    rcases hrun : selectLoopTr prompt options 0 inputs with ⟨res, tr'⟩
    rw [hrun] at heq
    cases res with
    | blocked => simp at heq
    | done r' =>
      simp only [Prod.mk.injEq] at heq
      rw [← heq.2]
      exact wrap_trace_head_last tr'
  · intro r tr heq
    rw [MultiSelect, if_neg hlen] at heq
    simp only [Bool.true_eq_false, if_false] at heq
    rcases hrun : multiSelectLoopTr prompt options 0
        (List.replicate options.length false) inputs with ⟨res, tr'⟩
    rw [hrun] at heq
    cases res with
    | blocked => simp at heq
    | done r' =>
      simp only [Prod.mk.injEq] at heq
      rw [← heq.2]
      exact wrap_trace_head_last tr'

/-- Witness for C9 at a concrete run: a single Enter over the demo options
produces the trace open, render, read, close. -/
theorem close_on_every_exit_witness :
    ([Effect.openRaw, Effect.render (selectFrame "p" demoOptions 0),
        Effect.readKey, Effect.closeRaw].head? = some Effect.openRaw)
    ∧ ([Effect.openRaw, Effect.render (selectFrame "p" demoOptions 0),
        Effect.readKey, Effect.closeRaw].getLast? = some Effect.closeRaw) := by
  have h := (close_on_every_exit "p" "m" demoOptions [demoEnter] (by decide)).1
    (GoResult.ok "1")
    [Effect.openRaw, Effect.render (selectFrame "p" demoOptions 0),
      Effect.readKey, Effect.closeRaw] (by rfl)
  exact h

/-- C10: both functions report user cancellation as an ordinary error value
whose message is exactly "selection cancelled" (with the zero result value),
and propagate a key-read failure's message unchanged; both surface as the
same `GoResult.err` shape, so only the message distinguishes them. -/
theorem error_message_discipline :
    ∀ (options : List Option) (c : Int) (sel : List Bool), options ≠ [] →
      0 ≤ c → c < (options.length : Int) → sel.length = options.length →
      (∀ (ch : Char) (rest : List KeyInput),
        selectLoop options c (KeyInput.key ch Key.esc :: rest)
          = .done (.err "selection cancelled")
        ∧ multiSelectLoop options c sel (KeyInput.key ch Key.esc :: rest)
          = .done (.err "selection cancelled"))
      ∧ (∀ (msg : String) (rest : List KeyInput),
        selectLoop options c (KeyInput.readErr msg :: rest) = .done (.err msg)
        ∧ multiSelectLoop options c sel (KeyInput.readErr msg :: rest)
          = .done (.err msg)) := by
  intro options c sel h hc hlt hsel
  constructor
  · intro ch rest
    constructor <;>
      simp [selectLoop, multiSelectLoop, selectStep, multiSelectStep, cancelledMsg]
  · intro msg rest
    constructor <;> simp [selectLoop, multiSelectLoop]

/-- Witness for C10 at a concrete state: a read failure's message comes back
verbatim. -/
theorem error_message_discipline_witness :
    selectLoop demoOptions 0 [KeyInput.readErr "boom"] = .done (.err "boom") := by
  have h := (error_message_discipline demoOptions 0 [false, false, false]
    (by decide) (by decide) (by decide) (by decide)).2 "boom" []
  exact h.1

end dropdown

